import Mathlib

/-!
Shallow embedding of the prf+ KDF in
`src/libstrongswan/plugins/openssl/openssl_kdf.c`.

The instance state (`private_kdf_t`) holds a hasher, a key and a salt.
Each method of the C vtable is embedded as a Lean function that takes the
instance state and returns its result together with the post-call state
(the C methods receive `this` by pointer and may mutate it).

The OpenSSL EVP HKDF context used inside `get_bytes` is modelled
explicitly, including the append-only behaviour of its info field, since
the whole point of the design is that each call builds a fresh context.
-/

set_option autoImplicit false

namespace OpensslKdf

/-- A byte buffer (strongswan `chunk_t`), modelled as the list of byte
values it holds. -/
abbrev Chunk := List Nat

/-- Modelled from the spec: the Secure Buffer utility (chunk.h is not part
of the fragment). `chunk_clone` stores an owned copy of the bytes. -/
def chunk_clone (c : Chunk) : Chunk := c

/-- Modelled from the spec: the Secure Buffer guarantees zero-overwrite on
release. `chunk_clear` overwrites every byte with zero before freeing; the
result is the final content of the released memory. -/
def chunk_clear (c : Chunk) : Chunk := List.replicate c.length 0

/-- Modelled from the spec: `chunk_from_str` exposes the bytes of an ASCII
string literal, without a terminating NUL. -/
def chunk_from_str (s : String) : Chunk := s.data.map Char.toNat

/-- Modelled from the spec: a hash primitive as supplied by the external
Hash Primitive Provider (`EVP_MD`). `len` is the output block size in
bytes and `hmac key data` the HMAC digest; the provider is trusted, so the
digest length is part of the interface. -/
structure Hash where
  len : Nat
  len_pos : 0 < len
  hmac : List Nat → List Nat → List Nat
  hmac_len : ∀ k d, (hmac k d).length = len

/-- Modelled from the spec: block `T(i)` of HKDF-Expand (RFC 5869), the
extract-less expansion primitive wrapped by OpenSSL:
`T(0) = empty`, `T(i) = HMAC(prk, T(i-1) || info || i)`. -/
def hkdfT (h : Hash) (prk info : List Nat) : Nat → List Nat
  | 0 => []
  | i + 1 => h.hmac prk (hkdfT h prk info i ++ info ++ [(i + 1) % 256])

/-- Concatenation `T(1) || ... || T(n)` of the HKDF-Expand blocks. -/
def hkdfStream (h : Hash) (prk info : List Nat) : Nat → List Nat
  | 0 => []
  | i + 1 => hkdfStream h prk info i ++ hkdfT h prk info (i + 1)

/-- Modelled from the spec: HKDF-Expand. The output is the first
`okm_len` bytes of the block stream; the primitive's documented ceiling is
255 blocks, i.e. `255 * h.len` bytes, beyond which it fails. -/
def HKDF_Expand (h : Hash) (prk info : List Nat) (okm_len : Nat) :
    Option (List Nat) :=
  let n := okm_len / h.len + (if okm_len % h.len = 0 then 0 else 1)
  if 255 < n then none
  else some ((hkdfStream h prk info n).take okm_len)

/-- Modelled from the spec: an OpenSSL EVP HKDF derivation context. The
info field is append-only: "the underlying expansion primitive accumulates
bytes appended to info across repeated use of the same context object". -/
structure HkdfCtx where
  md : Option Hash := none
  expandOnly : Bool := false
  key : Option (List Nat) := none
  info : List Nat := []

/-- A brand-new context: no digest, no key, empty info. -/
def EVP_PKEY_CTX_new_id : HkdfCtx := {}

/-- Initialise for derivation (no observable effect in the model). -/
def EVP_PKEY_derive_init (ctx : HkdfCtx) : HkdfCtx := ctx

/-- Bind a digest to the context; fails when the digest pointer is NULL
(e.g. the provider could not supply the hash). -/
def EVP_PKEY_CTX_set_hkdf_md (ctx : HkdfCtx) (md : Option Hash) :
    Option HkdfCtx :=
  match md with
  | none => none
  | some h => some { ctx with md := some h }

/-- Select EXPAND_ONLY mode (no extract phase). -/
def EVP_PKEY_CTX_hkdf_mode (ctx : HkdfCtx) : HkdfCtx :=
  { ctx with expandOnly := true }

/-- `set1`: replace the context's input keying material. -/
def EVP_PKEY_CTX_set1_hkdf_key (ctx : HkdfCtx) (k : List Nat) : HkdfCtx :=
  { ctx with key := some k }

/-- `add1`: APPEND bytes to the context's info field — this is the
append trap the implementation must avoid by never reusing a context. -/
def EVP_PKEY_CTX_add1_hkdf_info (ctx : HkdfCtx) (i : List Nat) : HkdfCtx :=
  { ctx with info := ctx.info ++ i }

/-- Run the derivation: requires a digest, a key and expand-only mode,
then computes HKDF-Expand over the accumulated info. -/
def EVP_PKEY_derive (ctx : HkdfCtx) (out_len : Nat) : Option (List Nat) :=
  match ctx.md, ctx.key, ctx.expandOnly with
  | some h, some k, true => HKDF_Expand h k ctx.info out_len
  | _, _, _ => none

/-- `kdf_param_t` (from kdf.h, not part of the fragment): a C enum,
modelled as its integer values. -/
def KDF_PARAM_KEY : Nat := 0

/-- `KDF_PARAM_SALT`, the second member of `kdf_param_t`. -/
def KDF_PARAM_SALT : Nat := 1

/-- `key_derivation_function_t` value `KDF_PRF_PLUS` (from kdf.h, not
part of the fragment), modelled as its integer value. -/
def KDF_PRF_PLUS : Nat := 2

/-- `SIZE_MAX` for the 64-bit `size_t` the code is built with. -/
def SIZE_MAX : Nat := 2 ^ 64 - 1

/-- Private data of the KDF instance: the hasher resolved at construction
(`EVP_MD *`, NULL when the provider failed), and the owned key and salt
buffers. -/
structure private_kdf_t where
  hasher : Option Hash
  key : Chunk
  salt : Chunk

/-- `get_type`: the fixed construction identifier. -/
def get_type (_this : private_kdf_t) : Nat := KDF_PRF_PLUS

/-- `get_length`: the advertised maximum output length. -/
def get_length (_this : private_kdf_t) : Nat := SIZE_MAX

/-- `get_bytes`: build a fresh EVP HKDF context from the stored key and
salt, derive `out_len` bytes, free the context. Returns the derived bytes
(`none` on failure) and the post-call instance state. -/
def get_bytes (this : private_kdf_t) (out_len : Nat) :
    Option (List Nat) × private_kdf_t :=
  let ctx := EVP_PKEY_CTX_new_id
  let ctx := EVP_PKEY_derive_init ctx
  match EVP_PKEY_CTX_set_hkdf_md ctx this.hasher with
  | none => (none, this)
  | some ctx =>
    let ctx := EVP_PKEY_CTX_hkdf_mode ctx
    let ctx := EVP_PKEY_CTX_set1_hkdf_key ctx this.key
    let ctx := EVP_PKEY_CTX_add1_hkdf_info ctx this.salt
    (EVP_PKEY_derive ctx out_len, this)

/-- `allocate_bytes`: allocate a buffer of `out_len` bytes, fill it via
`get_bytes`; on failure the buffer is freed and nothing is handed out. -/
def allocate_bytes (this : private_kdf_t) (out_len : Nat) :
    Option Chunk × private_kdf_t :=
  match get_bytes this out_len with
  | (none, this2) => (none, this2)
  | (some bytes, this2) => (some bytes, this2)

/-- `set_param`: on `KDF_PARAM_KEY` / `KDF_PARAM_SALT`, clear the old
buffer and store an owned clone of the new value; any other enum value
falls through the switch. Always returns TRUE. -/
def set_param (this : private_kdf_t) (param : Nat) (chunk : Chunk) :
    Bool × private_kdf_t :=
  if param = KDF_PARAM_KEY then
    (true, { this with key := chunk_clone chunk })
  else if param = KDF_PARAM_SALT then
    (true, { this with salt := chunk_clone chunk })
  else
    (true, this)

/-- `destroy`: wipe the salt, then the key, then free the instance. The
result records the final contents of the two buffers at the moment of
release (salt first, matching the code's order). -/
def destroy (this : private_kdf_t) : Chunk × Chunk :=
  (chunk_clear this.salt, chunk_clear this.key)

/-- The fixed placeholder key installed at construction: 32 ASCII zero
characters, "a lengthy key to test the implementation". -/
def placeholder_key : Chunk :=
  chunk_clone (chunk_from_str "00000000000000000000000000000000")

/-- `openssl_kdf_create`: reject anything but `KDF_PRF_PLUS`, resolve the
hash name for the requested PRF (`enum_to_name` composed with
`hasher_algorithm_from_prf`, both external, passed as `resolve`), obtain
the digest from the provider (`EVP_get_digestbyname`, passed as
`digestbyname`), install the placeholder key, and self-test with one
8-byte expansion; on any failure destroy the instance and return NULL. -/
def openssl_kdf_create (resolve : Nat → Option String)
    (digestbyname : String → Option Hash) (algo : Nat) (prf_alg : Nat) :
    Option private_kdf_t :=
  if algo ≠ KDF_PRF_PLUS then none
  else
    match resolve prf_alg with
    | none => none
    | some name =>
      let this : private_kdf_t :=
        { hasher := digestbyname name
          key := placeholder_key
          salt := [] }
      match get_bytes this 8 with
      | (res, this2) =>
        if this2.hasher.isNone || res.isNone then none else some this2

/-- A small concrete hash primitive used to exercise the model on
concrete inputs: two-byte digests derived from sums of the inputs. -/
def testHash : Hash where
  len := 2
  len_pos := by decide
  hmac := fun k d => [(k.sum + d.sum) % 256, (k.length + d.length) % 256]
  hmac_len := fun _ _ => rfl

/-! ## Helper lemmas -/

/-- The placeholder key is 32 ASCII '0' characters, i.e. 32 bytes 0x30. -/
theorem placeholder_key_eq : placeholder_key = List.replicate 32 48 := by decide

/-- `get_bytes` never modifies the instance state: the derivation context
is local to the call. -/
theorem get_bytes_snd (st : private_kdf_t) (L : Nat) :
    (get_bytes st L).2 = st := by
  rcases st with ⟨hasher, key, salt⟩
  cases hasher <;> rfl

/-- `allocate_bytes` never modifies the instance state. -/
theorem allocate_bytes_snd (st : private_kdf_t) (L : Nat) :
    (allocate_bytes st L).2 = st := by
  unfold allocate_bytes
  rcases hgb : get_bytes st L with ⟨res, st2⟩
  have hsnd := get_bytes_snd st L
  rw [hgb] at hsnd
  cases res <;> simpa using hsnd

/-- In the presence of a hasher, `get_bytes` computes HKDF-Expand over the
stored key and salt. -/
theorem get_bytes_some (hh : Hash) (key salt : Chunk) (L : Nat) :
    get_bytes ⟨some hh, key, salt⟩ L = (HKDF_Expand hh key salt L, ⟨some hh, key, salt⟩) :=
  rfl

/-- Each block `T(i+1)` has the hash's output length. -/
theorem hkdfT_length_succ (h : Hash) (prk info : List Nat) (i : Nat) :
    (hkdfT h prk info (i + 1)).length = h.len := by
  simp [hkdfT, h.hmac_len]

/-- The stream of `n` blocks has length `n * h.len`. -/
theorem hkdfStream_length (h : Hash) (prk info : List Nat) (n : Nat) :
    (hkdfStream h prk info n).length = n * h.len := by
  induction n with
  | zero => simp [hkdfStream]
  | succ i ih => simp [hkdfStream, ih, hkdfT_length_succ, Nat.succ_mul]

/-- The ceiling block count covers the requested length. -/
theorem le_blocks_mul (L len : Nat) (hpos : 0 < len) :
    L ≤ (L / len + (if L % len = 0 then 0 else 1)) * len := by
  by_cases hmod : L % len = 0
  · simp only [hmod, if_pos rfl, Nat.add_zero]
    exact Nat.le_of_eq (Nat.div_mul_cancel (Nat.dvd_of_mod_eq_zero hmod)).symm
  · simp only [hmod, if_neg hmod]
    exact Nat.le_of_lt ((Nat.div_lt_iff_lt_mul hpos).mp (Nat.lt_succ_self _))

/-- A successful HKDF-Expand returns exactly the requested length. -/
theorem HKDF_Expand_length (h : Hash) (prk info : List Nat) (L : Nat)
    (out : List Nat) (hout : HKDF_Expand h prk info L = some out) :
    out.length = L := by
  unfold HKDF_Expand at hout
  by_cases hguard : 255 < L / h.len + (if L % h.len = 0 then 0 else 1)
  · simp [hguard] at hout
  · rw [if_neg hguard] at hout
    injection hout with hout
    subst hout
    rw [List.length_take, hkdfStream_length]
    exact Nat.min_eq_left (le_blocks_mul L h.len h.len_pos)

/-- A replicated zero buffer holds only zero bytes. -/
theorem replicate_all_zero (n : Nat) :
    (List.replicate n (0 : Nat)).all (fun b => b == 0) = true := by
  induction n with
  | zero => rfl
  | succ i ih => simp [List.replicate_succ, ih]

/-- Wiping preserves a buffer's length. -/
theorem chunk_clear_length (c : Chunk) : (chunk_clear c).length = c.length := by
  simp [chunk_clear]

/-- A wiped buffer holds only zero bytes. -/
theorem chunk_clear_all_zero (c : Chunk) :
    (chunk_clear c).all (fun b => b == 0) = true :=
  replicate_all_zero c.length

/-- HKDF-Expand fails one past the 255-block ceiling. -/
theorem HKDF_Expand_over_ceiling (h : Hash) (prk info : List Nat) :
    HKDF_Expand h prk info (255 * h.len + 1) = none := by
  unfold HKDF_Expand
  have hle := le_blocks_mul (255 * h.len + 1) h.len h.len_pos
  have hgt : 255 < (255 * h.len + 1) / h.len +
      (if (255 * h.len + 1) % h.len = 0 then 0 else 1) := by
    by_contra hle2
    push_neg at hle2
    have hcontra := le_trans hle (Nat.mul_le_mul_right h.len hle2)
    omega
  simp [hgt]

/-! ## Claim theorems -/

/-- C1: context isolation across salt replacement. Setting `salt = A`,
deriving, then setting `salt = B` and deriving again yields the same
output as a freshly constructed instance (placeholder key, empty salt)
whose key was set to the same key and whose salt was set directly to `B`;
no residue of `A` influences the second result. -/
theorem context_isolation (st : private_kdf_t) (A B : Chunk) (L M : Nat) :
    let stA := (set_param st KDF_PARAM_SALT A).2
    let stA2 := (get_bytes stA M).2
    let stB := (set_param stA2 KDF_PARAM_SALT B).2
    let fresh : private_kdf_t := ⟨st.hasher, placeholder_key, []⟩
    let freshK := (set_param fresh KDF_PARAM_KEY st.key).2
    let freshB := (set_param freshK KDF_PARAM_SALT B).2
    (get_bytes stB L).1 = (get_bytes freshB L).1 := by
  simp only [get_bytes_snd]
  rcases st with ⟨hasher, key, salt⟩
  rfl

/-- C2 counterexample: on a concrete instance, `set_param` with the
unknown parameter kind 2 does not fail — it returns TRUE (success) while
leaving the state unchanged, contradicting "fails with InvalidParameter". -/
theorem set_param_unknown_cex :
    (set_param ⟨some testHash, [1, 2], [3]⟩ 2 [9]).1 = true ∧
    (set_param ⟨some testHash, [1, 2], [3]⟩ 2 [9]).2 = ⟨some testHash, [1, 2], [3]⟩ :=
  ⟨rfl, rfl⟩

/-- C2 (amended): for every parameter kind other than `KDF_PARAM_KEY` and
`KDF_PARAM_SALT`, `set_param` returns TRUE (silently succeeds, the switch
has no default case) and leaves the instance's key and salt unchanged. -/
theorem set_param_unknown_noop (st : private_kdf_t) (param : Nat)
    (chunk : Chunk) (hk : param ≠ KDF_PARAM_KEY) (hs : param ≠ KDF_PARAM_SALT) :
    (set_param st param chunk).1 = true ∧ (set_param st param chunk).2 = st := by
  simp [set_param, hk, hs]

/-- Witness for `set_param_unknown_noop` at parameter kind 2. -/
theorem set_param_unknown_noop_witness :
    ((2 : Nat) ≠ KDF_PARAM_KEY ∧ (2 : Nat) ≠ KDF_PARAM_SALT) ∧
    ((set_param ⟨some testHash, [5], [6]⟩ 2 [7]).1 = true ∧
     (set_param ⟨some testHash, [5], [6]⟩ 2 [7]).2 = ⟨some testHash, [5], [6]⟩) :=
  ⟨⟨by decide, by decide⟩,
    set_param_unknown_noop ⟨some testHash, [5], [6]⟩ 2 [7] (by decide) (by decide)⟩

/-- C4: key replacement overwrite. On a fresh instance, setting
`key = K1` then `key = K2` and deriving matches a fresh instance on which
only `K2` was set; moreover the stored copy of `K1` is wiped to zero bytes
(over its full length) by `chunk_clear` before the replacement is stored. -/
theorem key_replacement (h : Option Hash) (K1 K2 : Chunk) (L : Nat) :
    let fresh : private_kdf_t := ⟨h, placeholder_key, []⟩
    let st1 := (set_param fresh KDF_PARAM_KEY K1).2
    let st2 := (set_param st1 KDF_PARAM_KEY K2).2
    let fresh2 := (set_param fresh KDF_PARAM_KEY K2).2
    (get_bytes st2 L).1 = (get_bytes fresh2 L).1 ∧
    (chunk_clear st1.key).length = K1.length ∧
    (chunk_clear st1.key).all (fun b => b == 0) = true := by
  refine ⟨rfl, ?_, ?_⟩
  · show (chunk_clear (chunk_clone K1)).length = K1.length
    exact chunk_clear_length K1
  · show (chunk_clear (chunk_clone K1)).all (fun b => b == 0) = true
    exact chunk_clear_all_zero K1

/-- C7: determinism. `allocate_bytes` leaves the instance unmodified, and
a repeated call on the resulting (unmodified) instance returns the
identical result. -/
theorem derive_deterministic (st : private_kdf_t) (L : Nat) :
    (allocate_bytes st L).2 = st ∧
    (allocate_bytes ((allocate_bytes st L).2) L).1 = (allocate_bytes st L).1 := by
  have h := allocate_bytes_snd st L
  exact ⟨h, by rw [h]⟩

/-- C9: destruction hygiene. `destroy` leaves the released salt and key
buffers holding only zero bytes, over their full former lengths, for every
instance state. -/
theorem destroy_zeroizes (st : private_kdf_t) :
    (destroy st).1.all (fun b => b == 0) = true ∧
    (destroy st).2.all (fun b => b == 0) = true ∧
    (destroy st).1.length = st.salt.length ∧
    (destroy st).2.length = st.key.length := by
  exact ⟨chunk_clear_all_zero st.salt, chunk_clear_all_zero st.key,
    chunk_clear_length st.salt, chunk_clear_length st.key⟩

/-- C3 counterexample: for a concrete instance whose hash has 2-byte
output blocks, `get_length` returns SIZE_MAX, not the primitive ceiling
`255 * 2 = 510`. -/
theorem get_length_cex :
    get_length ⟨some testHash, [], []⟩ ≠ 255 * testHash.len := by decide

/-- C3 (amended): `get_length` returns SIZE_MAX — an effectively
unlimited capacity — for every instance, regardless of the hash selected
at construction; that advertised limit exceeds the expansion primitive's
documented ceiling of 255 blocks, and a request of `255 * len + 1` bytes,
well inside the advertised limit, fails in the primitive. -/
theorem get_length_unlimited (st : private_kdf_t) (hh : Hash)
    (hsome : st.hasher = some hh) (hlen : hh.len ≤ 2 ^ 50) :
    get_length st = SIZE_MAX ∧
    255 * hh.len + 1 ≤ get_length st ∧
    (get_bytes st (255 * hh.len + 1)).1 = none := by
  refine ⟨rfl, ?_, ?_⟩
  · have h50 : (2 : Nat) ^ 50 = 1125899906842624 := by norm_num
    have h64 : (2 : Nat) ^ 64 = 18446744073709551616 := by norm_num
    rw [h50] at hlen
    show 255 * hh.len + 1 ≤ 2 ^ 64 - 1
    rw [h64]
    omega
  · rcases st with ⟨hasher, key, salt⟩
    obtain rfl : hasher = some hh := hsome
    rw [get_bytes_some]
    exact HKDF_Expand_over_ceiling hh key salt

/-- Witness for `get_length_unlimited` on a concrete instance. -/
theorem get_length_unlimited_witness :
    ((⟨some testHash, [4], [5]⟩ : private_kdf_t).hasher = some testHash ∧
      testHash.len ≤ 2 ^ 50) ∧
    (get_length ⟨some testHash, [4], [5]⟩ = SIZE_MAX ∧
     255 * testHash.len + 1 ≤ get_length ⟨some testHash, [4], [5]⟩ ∧
     (get_bytes ⟨some testHash, [4], [5]⟩ (255 * testHash.len + 1)).1 = none) :=
  ⟨⟨rfl, by decide⟩, get_length_unlimited ⟨some testHash, [4], [5]⟩ testHash rfl (by decide)⟩

/-- C6: every call to `allocate_bytes` either fails handing out no buffer
(the allocated buffer is freed), or succeeds with a buffer of exactly the
requested length. -/
theorem allocate_bytes_exact (st : private_kdf_t) (L : Nat) :
    (allocate_bytes st L).1 = none ∨
    ∃ out, (allocate_bytes st L).1 = some out ∧ out.length = L := by
  rcases st with ⟨hasher, key, salt⟩
  cases hasher with
  | none => exact Or.inl rfl
  | some hh =>
    rcases hres : HKDF_Expand hh key salt L with _ | out
    · left
      unfold allocate_bytes
      rw [get_bytes_some, hres]
    · right
      refine ⟨out, ?_, HKDF_Expand_length hh key salt L out hres⟩
      unfold allocate_bytes
      rw [get_bytes_some, hres]

/-- C8: derive with `output_length = 0` succeeds and returns a
zero-length result on every instance holding a hash primitive. -/
theorem derive_zero_length (st : private_kdf_t) (hh : Hash)
    (hsome : st.hasher = some hh) :
    (allocate_bytes st 0).1 = some [] := by
  rcases st with ⟨hasher, key, salt⟩
  obtain rfl : hasher = some hh := hsome
  have hexp : HKDF_Expand hh key salt 0 = some [] := by
    unfold HKDF_Expand
    simp
  unfold allocate_bytes
  rw [get_bytes_some, hexp]

/-- Witness for `derive_zero_length` on a concrete instance. -/
theorem derive_zero_length_witness :
    (⟨some testHash, [1], [2]⟩ : private_kdf_t).hasher = some testHash ∧
    (allocate_bytes ⟨some testHash, [1], [2]⟩ 0).1 = some [] :=
  ⟨rfl, derive_zero_length ⟨some testHash, [1], [2]⟩ testHash rfl⟩

/-- C5: construction gating. `openssl_kdf_create` returns no instance
whenever the identifier is not KDF_PRF_PLUS, or the resolver cannot map
the PRF to a hash name, or the provider cannot supply the hash primitive,
or the construction self-test expansion fails. -/
theorem create_gating (resolve : Nat → Option String)
    (digestbyname : String → Option Hash) (algo prf_alg : Nat)
    (hfail : algo ≠ KDF_PRF_PLUS ∨ resolve prf_alg = none ∨
      (∃ name, resolve prf_alg = some name ∧ digestbyname name = none) ∨
      (∃ name hh, resolve prf_alg = some name ∧ digestbyname name = some hh ∧
        (get_bytes ⟨some hh, placeholder_key, []⟩ 8).1 = none)) :
    openssl_kdf_create resolve digestbyname algo prf_alg = none := by
  unfold openssl_kdf_create
  rcases hfail with halgo | hres | ⟨name, hres, hdg⟩ | ⟨name, hh, hres, hdg, hst⟩
  · rw [if_pos halgo]
  · by_cases halgo : algo = KDF_PRF_PLUS
    · rw [if_neg (not_not_intro halgo), hres]
    · rw [if_pos halgo]
  · by_cases halgo : algo = KDF_PRF_PLUS
    · rw [if_neg (not_not_intro halgo), hres]
      dsimp only
      rw [hdg]
      rfl
    · rw [if_pos halgo]
  · have hst2 : HKDF_Expand hh placeholder_key [] 8 = none := by
      rw [get_bytes_some] at hst
      exact hst
    by_cases halgo : algo = KDF_PRF_PLUS
    · rw [if_neg (not_not_intro halgo), hres]
      dsimp only
      rw [hdg, get_bytes_some, hst2]
      rfl
    · rw [if_pos halgo]

/-- A resolver that maps no PRF identifier, for exercising the gating. -/
def noResolve : Nat → Option String := fun _ => none

/-- A provider that supplies no digest, for exercising the gating. -/
def noDigest : String → Option Hash := fun _ => none

/-- Witness for `create_gating`: an unsupported identifier yields NULL. -/
theorem create_gating_witness :
    ((0 : Nat) ≠ KDF_PRF_PLUS ∨ noResolve 0 = none ∨
      (∃ name, noResolve 0 = some name ∧ noDigest name = none) ∨
      (∃ name hh, noResolve 0 = some name ∧ noDigest name = some hh ∧
        (get_bytes ⟨some hh, placeholder_key, []⟩ 8).1 = none)) ∧
    openssl_kdf_create noResolve noDigest 0 0 = none :=
  ⟨Or.inl (by decide), create_gating noResolve noDigest 0 0 (Or.inl (by decide))⟩

/-- C10: immediately after successful construction and before any
`set_param` call, the key holds the 32-byte ASCII placeholder (byte value
48 = '0', not zero bytes), the salt is empty, and `get_bytes` succeeds in
this state at the self-test length — deriving before setting a real key is
not rejected. -/
theorem post_construction_state (resolve : Nat → Option String)
    (digestbyname : String → Option Hash) (algo prf_alg : Nat)
    (st : private_kdf_t)
    (hc : openssl_kdf_create resolve digestbyname algo prf_alg = some st) :
    st.key = List.replicate 32 48 ∧
    st.key ≠ List.replicate 32 0 ∧
    st.salt = [] ∧
    (get_bytes st 8).1.isSome = true := by
  unfold openssl_kdf_create at hc
  by_cases halgo : algo = KDF_PRF_PLUS
  · rw [if_neg (not_not_intro halgo)] at hc
    rcases hres : resolve prf_alg with _ | name
    · rw [hres] at hc
      exact absurd hc (by simp)
    · rw [hres] at hc
      dsimp only at hc
      have hsnd := get_bytes_snd ⟨digestbyname name, placeholder_key, []⟩ 8
      rcases hgb : get_bytes ⟨digestbyname name, placeholder_key, []⟩ 8 with ⟨res, this2⟩
      rw [hgb] at hc hsnd
      dsimp only at hsnd
      subst hsnd
      rcases res with _ | out
      · simp at hc
      · rcases hdg : digestbyname name with _ | hh
        · rw [hdg] at hc
          simp at hc
        · rw [hdg] at hc
          simp at hc
          subst hc
          refine ⟨placeholder_key_eq, ?_, rfl, ?_⟩
          · rw [placeholder_key_eq]
            show List.replicate 32 48 ≠ List.replicate 32 0
            decide
          · rw [hdg] at hgb
            rw [hgb]
            rfl
  · rw [if_pos halgo] at hc
    exact absurd hc (by simp)

/-- A resolver that maps every PRF identifier, for exercising a
successful construction. -/
def okResolve : Nat → Option String := fun _ => some "sha256"

/-- A provider that supplies the concrete test digest. -/
def okDigest : String → Option Hash := fun _ => some testHash

/-- Witness for `post_construction_state` at a successful construction. -/
theorem post_construction_state_witness :
    openssl_kdf_create okResolve okDigest 2 5 =
      some ⟨some testHash, placeholder_key, []⟩ ∧
    ((⟨some testHash, placeholder_key, []⟩ : private_kdf_t).key = List.replicate 32 48 ∧
     (⟨some testHash, placeholder_key, []⟩ : private_kdf_t).key ≠ List.replicate 32 0 ∧
     (⟨some testHash, placeholder_key, []⟩ : private_kdf_t).salt = [] ∧
     (get_bytes ⟨some testHash, placeholder_key, []⟩ 8).1.isSome = true) :=
  ⟨rfl, post_construction_state okResolve okDigest 2 5
    ⟨some testHash, placeholder_key, []⟩ rfl⟩

end OpensslKdf
